import Mathlib

/-!
Shallow embedding of the orbit-camera example (`src/main.rs`).

Numeric values (`f32` in the source) are modelled as real numbers.  A
rotation (`Quat` in the source) is represented by its Euler-angle
decomposition in `EulerRot::YXZ` order — the canonical form the program
itself works in: every frame it calls `to_euler(EulerRot::YXZ)`, mutates
the three angles, and rebuilds the quaternion with
`Quat::from_euler(EulerRot::YXZ, ..)`.  Under this representation
`to_euler` is the projection to the angle triple and `from_euler` the
constructor, and the quaternion's action on a vector is the composite
rotation Ry(yaw) ∘ Rx(pitch) ∘ Rz(roll) written out as matrices.
-/

/-- A 2D vector (`Vec2` / `AccumulatedMouseMotion::delta` in the source). -/
structure Vec2 where
  x : ℝ
  y : ℝ

instance : Neg Vec2 := ⟨fun v => ⟨-v.x, -v.y⟩⟩

/-- A 3D vector (`Vec3` in the source). -/
structure Vec3 where
  x : ℝ
  y : ℝ
  z : ℝ

/-- The constant `Vec3::ZERO`. -/
def Vec3.ZERO : Vec3 := ⟨0, 0, 0⟩

instance : Sub Vec3 := ⟨fun a b => ⟨a.x - b.x, a.y - b.y, a.z - b.z⟩⟩

instance : HMul Vec3 ℝ Vec3 := ⟨fun v a => ⟨v.x * a, v.y * a, v.z * a⟩⟩

/-- Euclidean length of a 3D vector (`Vec3::length`); the distance of a
point from the world origin. -/
noncomputable def Vec3.length (v : Vec3) : ℝ :=
  Real.sqrt (v.x ^ 2 + v.y ^ 2 + v.z ^ 2)

/-- A rotation: the source's `Quat`, represented by its `EulerRot::YXZ`
Euler angles (yaw about world Y, then pitch about X, then roll about Z). -/
structure Quat where
  yaw : ℝ
  pitch : ℝ
  roll : ℝ

/-- The source's `Quat::to_euler(EulerRot::YXZ)`: in this representation,
the projection to the (yaw, pitch, roll) triple. -/
def Quat.to_euler (q : Quat) : ℝ × ℝ × ℝ := (q.yaw, q.pitch, q.roll)

/-- The source's `Quat::from_euler(EulerRot::YXZ, yaw, pitch, roll)`: in
this representation, the constructor. -/
def Quat.from_euler (yaw pitch roll : ℝ) : Quat := ⟨yaw, pitch, roll⟩

/-- Rotation matrix about the X axis by angle `a`, applied to `v`. -/
noncomputable def rotX (a : ℝ) (v : Vec3) : Vec3 :=
  ⟨v.x, v.y * Real.cos a - v.z * Real.sin a, v.y * Real.sin a + v.z * Real.cos a⟩

/-- Rotation matrix about the Y axis by angle `a`, applied to `v`. -/
noncomputable def rotY (a : ℝ) (v : Vec3) : Vec3 :=
  ⟨v.x * Real.cos a + v.z * Real.sin a, v.y, -v.x * Real.sin a + v.z * Real.cos a⟩

/-- Rotation matrix about the Z axis by angle `a`, applied to `v`. -/
noncomputable def rotZ (a : ℝ) (v : Vec3) : Vec3 :=
  ⟨v.x * Real.cos a - v.y * Real.sin a, v.x * Real.sin a + v.y * Real.cos a, v.z⟩

/-- Action of a rotation on a vector: `EulerRot::YXZ` applies yaw about Y,
then pitch about X, then roll about Z intrinsically, i.e. the matrix
Ry(yaw) · Rx(pitch) · Rz(roll). -/
noncomputable def Quat.mulVec (q : Quat) (v : Vec3) : Vec3 :=
  rotY q.yaw (rotX q.pitch (rotZ q.roll v))

/-- A transform component (`bevy::Transform`): translation, rotation,
scale. -/
structure Transform where
  translation : Vec3
  rotation : Quat
  scale : Vec3

/-- The source's `Transform::forward()`: the rotation applied to the local
−Z axis (a unit vector). -/
noncomputable def Transform.forward (t : Transform) : Vec3 :=
  t.rotation.mulVec ⟨0, 0, -1⟩

/-- Rust's `f32::clamp(lo, hi)`: `lo` if below, `hi` if above, the value
itself otherwise (the source always calls it with `lo ≤ hi`). -/
noncomputable def fclamp (x lo hi : ℝ) : ℝ :=
  if x < lo then lo else if x > hi then hi else x

/-- The pitch clamp range (`Range<f32>` with fields `start` and `end`;
the latter is spelled `stop` here because `end` is reserved). -/
structure Range where
  start : ℝ
  stop : ℝ

/-- The `CameraSettings` resource. -/
structure CameraSettings where
  orbit_distance : ℝ
  pitch_speed : ℝ
  pitch_range : Range
  roll_speed : ℝ
  yaw_speed : ℝ

/-- The `Default` impl for `CameraSettings`: pitch limited to
`FRAC_PI_2 - 0.01` on each side, orbit distance 20, pitch speed 0.003,
roll speed 1.0, yaw speed 0.004. -/
noncomputable def CameraSettings.default : CameraSettings :=
  let pitch_limit : ℝ := Real.pi / 2 - 0.01
  { orbit_distance := 20
    pitch_speed := 0.003
    pitch_range := ⟨-pitch_limit, pitch_limit⟩
    roll_speed := 1
    yaw_speed := 0.004 }

/-- The translation of the camera spawned by `setup`:
`Transform::from_xyz(10.0, 12.0, 16.0)` (the subsequent `looking_at` only
changes the rotation). -/
def setup_camera_translation : Vec3 := ⟨10, 12, 16⟩

/-- The `orbit` system, one frame: inputs are the settings resource, the
accumulated mouse motion, the left/right button pressed states, the
elapsed seconds, and the camera transform that it mutates. -/
noncomputable def orbit (camera_settings : CameraSettings) (mouse_motion_delta : Vec2)
    (left_pressed right_pressed : Bool) (delta_secs : ℝ) (camera : Transform) : Transform :=
  let delta : Vec2 := if left_pressed then -mouse_motion_delta else ⟨0, 0⟩
  let delta_roll : ℝ := if right_pressed then 0 + 1 else 0
  let delta_pitch := delta.y * camera_settings.pitch_speed
  let delta_yaw := delta.x * camera_settings.yaw_speed
  let delta_roll := delta_roll * (camera_settings.roll_speed * delta_secs)
  let angles := camera.rotation.to_euler
  let pitch := fclamp (angles.2.1 + delta_pitch)
    camera_settings.pitch_range.start camera_settings.pitch_range.stop
  let roll := angles.2.2 + delta_roll
  let yaw := angles.1 + delta_yaw
  let camera1 : Transform := { camera with rotation := Quat.from_euler yaw pitch roll }
  let target := Vec3.ZERO
  { camera1 with translation := target - camera1.forward * camera_settings.orbit_distance }

/-- One entity's step of the `rotate` system: an entity named "Cube4" has
its rotation decomposed (YXZ), the elapsed seconds added to its yaw, and
the quaternion rebuilt; any other entity is untouched. -/
noncomputable def rotate_entity (delta_secs : ℝ) (entity : String × Transform) :
    String × Transform :=
  if entity.1 = "Cube4" then
    let angles := entity.2.rotation.to_euler
    let yaw := angles.1 + delta_secs
    (entity.1, { entity.2 with rotation := Quat.from_euler yaw angles.2.1 angles.2.2 })
  else entity

/-- The `rotate` system, one frame over the whole entity query. -/
noncomputable def rotate (entities : List (String × Transform)) (delta_secs : ℝ) :
    List (String × Transform) :=
  entities.map (rotate_entity delta_secs)

/-- A concrete camera transform used to instantiate universal statements:
identity rotation, at the origin, unit scale. -/
def testCam : Transform := ⟨⟨0, 0, 0⟩, ⟨0, 0, 0⟩, ⟨1, 1, 1⟩⟩

@[simp] lemma Vec2.neg_def (v : Vec2) : -v = ⟨-v.x, -v.y⟩ := rfl

@[simp] lemma Vec3.sub_def (a b : Vec3) :
    a - b = ⟨a.x - b.x, a.y - b.y, a.z - b.z⟩ := rfl

@[simp] lemma Vec3.mul_def (v : Vec3) (a : ℝ) :
    v * a = ⟨v.x * a, v.y * a, v.z * a⟩ := rfl

lemma fclamp_mem (x lo hi : ℝ) (h : lo ≤ hi) :
    lo ≤ fclamp x lo hi ∧ fclamp x lo hi ≤ hi := by
  unfold fclamp
  split_ifs with h1 h2 <;> constructor <;> linarith

lemma fclamp_eq_self {x lo hi : ℝ} (h1 : lo ≤ x) (h2 : x ≤ hi) :
    fclamp x lo hi = x := by
  unfold fclamp
  split_ifs with ha hb <;> linarith

/-- Closed form for the rotation produced by one `orbit` step. -/
lemma orbit_rotation (s : CameraSettings) (m : Vec2) (l r : Bool) (dt : ℝ) (cam : Transform) :
    (orbit s m l r dt cam).rotation =
      ⟨cam.rotation.yaw + (if l then -m.x else 0) * s.yaw_speed,
       fclamp (cam.rotation.pitch + (if l then -m.y else 0) * s.pitch_speed)
         s.pitch_range.start s.pitch_range.stop,
       cam.rotation.roll + (if r then (0 : ℝ) + 1 else 0) * (s.roll_speed * dt)⟩ := by
  cases l <;> cases r <;> rfl

/-- The `orbit` step never touches the scale component. -/
lemma orbit_scale (s : CameraSettings) (m : Vec2) (l r : Bool) (dt : ℝ) (cam : Transform) :
    (orbit s m l r dt cam).scale = cam.scale := rfl

/-- The translation written by `orbit` is the orbit target (the origin)
minus the output transform's own forward vector scaled by the configured
orbit distance. -/
lemma orbit_forward_translation (s : CameraSettings) (m : Vec2) (l r : Bool) (dt : ℝ)
    (cam : Transform) :
    (orbit s m l r dt cam).translation =
      Vec3.ZERO - (orbit s m l r dt cam).forward * s.orbit_distance := rfl

lemma forward_x (t : Transform) :
    t.forward.x = -(Real.sin t.rotation.yaw * Real.cos t.rotation.pitch) := by
  simp [Transform.forward, Quat.mulVec, rotX, rotY, rotZ]
  ring

lemma forward_y (t : Transform) : t.forward.y = Real.sin t.rotation.pitch := by
  simp [Transform.forward, Quat.mulVec, rotX, rotY, rotZ]

lemma forward_z (t : Transform) :
    t.forward.z = -(Real.cos t.rotation.yaw * Real.cos t.rotation.pitch) := by
  simp [Transform.forward, Quat.mulVec, rotX, rotY, rotZ]
  ring

/-- Placing a point at the origin minus a forward vector scaled by
`d ≥ 0` puts it at distance exactly `d` from the origin, for any
orientation: the forward vector is unit length. -/
lemma length_target_sub_forward (t : Transform) (d : ℝ) (hd : 0 ≤ d) :
    (Vec3.ZERO - t.forward * d).length = d := by
  have hx : (Vec3.ZERO - t.forward * d).x =
      Real.sin t.rotation.yaw * Real.cos t.rotation.pitch * d := by
    simp [Vec3.ZERO, forward_x]
  have hy : (Vec3.ZERO - t.forward * d).y = -(Real.sin t.rotation.pitch * d) := by
    simp [Vec3.ZERO, forward_y]
  have hz : (Vec3.ZERO - t.forward * d).z =
      Real.cos t.rotation.yaw * Real.cos t.rotation.pitch * d := by
    simp [Vec3.ZERO, forward_z]
  unfold Vec3.length
  rw [hx, hy, hz]
  have h : (Real.sin t.rotation.yaw * Real.cos t.rotation.pitch * d) ^ 2 +
      (-(Real.sin t.rotation.pitch * d)) ^ 2 +
      (Real.cos t.rotation.yaw * Real.cos t.rotation.pitch * d) ^ 2 = d ^ 2 := by
    linear_combination (d ^ 2 * Real.cos t.rotation.pitch ^ 2) *
        Real.sin_sq_add_cos_sq t.rotation.yaw +
      d ^ 2 * Real.sin_sq_add_cos_sq t.rotation.pitch
  rw [h, Real.sqrt_sq hd]

/-- C8: the default camera configuration's pitch range has a lower bound
strictly below its upper bound, is symmetric around zero, and both bounds
lie strictly inside (−π/2, π/2). -/
theorem default_pitch_range_invariant :
    CameraSettings.default.pitch_range.start < CameraSettings.default.pitch_range.stop ∧
    CameraSettings.default.pitch_range.start = -CameraSettings.default.pitch_range.stop ∧
    -(Real.pi / 2) < CameraSettings.default.pitch_range.start ∧
    CameraSettings.default.pitch_range.stop < Real.pi / 2 := by
  have h3 := Real.pi_gt_three
  refine ⟨?_, ?_, ?_, ?_⟩ <;> simp [CameraSettings.default] <;> nlinarith

/-- C2: whatever the mouse motion, button states, elapsed time and prior
camera transform, the pitch of the orientation produced by `orbit` lies
within the configured pitch range (given a well-formed range). -/
theorem orbit_pitch_in_range (s : CameraSettings) (m : Vec2) (l r : Bool) (dt : ℝ)
    (cam : Transform) (h : s.pitch_range.start ≤ s.pitch_range.stop) :
    s.pitch_range.start ≤ (orbit s m l r dt cam).rotation.pitch ∧
    (orbit s m l r dt cam).rotation.pitch ≤ s.pitch_range.stop := by
  rw [orbit_rotation]
  exact fclamp_mem _ _ _ h

/-- Witness for C2 at the default settings, with huge mouse motion. -/
theorem orbit_pitch_in_range_witness :
    CameraSettings.default.pitch_range.start ≤ CameraSettings.default.pitch_range.stop ∧
    (CameraSettings.default.pitch_range.start ≤
      (orbit CameraSettings.default ⟨1000000, 1000000⟩ true true 1 testCam).rotation.pitch ∧
    (orbit CameraSettings.default ⟨1000000, 1000000⟩ true true 1 testCam).rotation.pitch ≤
      CameraSettings.default.pitch_range.stop) := by
  have h : CameraSettings.default.pitch_range.start ≤
      CameraSettings.default.pitch_range.stop := by
    have h3 := Real.pi_gt_three
    simp [CameraSettings.default]
    nlinarith
  exact ⟨h, orbit_pitch_in_range CameraSettings.default ⟨1000000, 1000000⟩ true true 1 testCam h⟩

/-- C5: with the right button held for elapsed time `dt`, `orbit` adds
exactly 1.0 × roll-speed × dt to the roll, whatever the mouse motion and
left-button state; with the right button up, the roll is unchanged.  No
clamp or wrap is applied to the sum. -/
theorem orbit_roll_update (s : CameraSettings) (m : Vec2) (l : Bool) (dt : ℝ)
    (cam : Transform) :
    (orbit s m l true dt cam).rotation.roll = cam.rotation.roll + 1 * s.roll_speed * dt ∧
    (orbit s m l false dt cam).rotation.roll = cam.rotation.roll := by
  constructor <;> rw [orbit_rotation] <;> simp [mul_assoc]

/-- C7: `orbit` is deterministic — equal settings, mouse motion, button
states, elapsed time and prior transform give equal outputs. -/
theorem orbit_deterministic (s₁ s₂ : CameraSettings) (m₁ m₂ : Vec2) (l₁ l₂ r₁ r₂ : Bool)
    (t₁ t₂ : ℝ) (cam₁ cam₂ : Transform) (hs : s₁ = s₂) (hm : m₁ = m₂) (hl : l₁ = l₂)
    (hr : r₁ = r₂) (ht : t₁ = t₂) (hc : cam₁ = cam₂) :
    orbit s₁ m₁ l₁ r₁ t₁ cam₁ = orbit s₂ m₂ l₂ r₂ t₂ cam₂ := by
  subst hs hm hl hr ht hc
  rfl

/-- Witness for C7 at a concrete input. -/
theorem orbit_deterministic_witness :
    orbit CameraSettings.default ⟨1, 2⟩ true false 1 testCam =
      orbit CameraSettings.default ⟨1, 2⟩ true false 1 testCam :=
  orbit_deterministic CameraSettings.default CameraSettings.default ⟨1, 2⟩ ⟨1, 2⟩
    true true false false 1 1 testCam testCam rfl rfl rfl rfl rfl rfl

/-- C1: with the left button held and accumulated motion (dx, dy), one
`orbit` step changes the yaw by exactly −dx × yaw-speed and feeds a pitch
delta of exactly −dy × pitch-speed into the clamp, for any elapsed time
and right-button state; in the scenario pitch-speed = 0.003, dy = 100 the
new pitch is clamp(old pitch − 0.3, lower, upper). -/
theorem orbit_left_drag (s : CameraSettings) (m : Vec2) (r : Bool) (dt : ℝ)
    (cam : Transform) :
    (orbit s m true r dt cam).rotation.yaw = cam.rotation.yaw - m.x * s.yaw_speed ∧
    (orbit s m true r dt cam).rotation.pitch =
      fclamp (cam.rotation.pitch - m.y * s.pitch_speed)
        s.pitch_range.start s.pitch_range.stop ∧
    (s.pitch_speed = 0.003 → m.y = 100 →
      (orbit s m true r dt cam).rotation.pitch =
        fclamp (cam.rotation.pitch - 0.3) s.pitch_range.start s.pitch_range.stop) := by
  have hyaw : (orbit s m true r dt cam).rotation.yaw =
      cam.rotation.yaw - m.x * s.yaw_speed := by
    rw [orbit_rotation]
    simp
    ring
  have hpitch : (orbit s m true r dt cam).rotation.pitch =
      fclamp (cam.rotation.pitch - m.y * s.pitch_speed)
        s.pitch_range.start s.pitch_range.stop := by
    rw [orbit_rotation]
    simp only [if_pos]
    congr 1
    ring
  refine ⟨hyaw, hpitch, fun hps hmy => ?_⟩
  rw [hpitch, hps, hmy]
  norm_num

/-- Witness for C1 at the default settings with dy = 100. -/
theorem orbit_left_drag_witness :
    CameraSettings.default.pitch_speed = 0.003 ∧
    (orbit CameraSettings.default ⟨5, 100⟩ true false 2 testCam).rotation.pitch =
      fclamp (testCam.rotation.pitch - 0.3)
        CameraSettings.default.pitch_range.start CameraSettings.default.pitch_range.stop :=
  ⟨rfl, (orbit_left_drag CameraSettings.default ⟨5, 100⟩ false 2 testCam).2.2 rfl rfl⟩

/-- C3: after any `orbit` step, the distance from the world origin to the
camera's translation equals the configured orbit distance (assumed
nonnegative, as the configured 20.0 is), and the translation equals the
target (the origin) minus the new orientation's forward vector scaled by
the orbit distance. -/
theorem orbit_radius_invariant (s : CameraSettings) (m : Vec2) (l r : Bool) (dt : ℝ)
    (cam : Transform) (hd : 0 ≤ s.orbit_distance) :
    ((orbit s m l r dt cam).translation).length = s.orbit_distance ∧
    (orbit s m l r dt cam).translation =
      Vec3.ZERO - (orbit s m l r dt cam).forward * s.orbit_distance := by
  constructor
  · rw [orbit_forward_translation]
    exact length_target_sub_forward _ _ hd
  · exact orbit_forward_translation s m l r dt cam

/-- Witness for C3 at the default settings (orbit distance 20). -/
theorem orbit_radius_invariant_witness :
    (0 : ℝ) ≤ CameraSettings.default.orbit_distance ∧
    ((orbit CameraSettings.default ⟨3, 4⟩ true true 1 testCam).translation).length =
      CameraSettings.default.orbit_distance := by
  have hd : (0 : ℝ) ≤ CameraSettings.default.orbit_distance := by
    simp [CameraSettings.default]
  exact ⟨hd, (orbit_radius_invariant CameraSettings.default ⟨3, 4⟩ true true 1 testCam hd).1⟩

/-- C6: each frame, the `rotate` system updates the entity named "Cube4"
by adding 1 × elapsed-seconds to the yaw of its decomposed (yaw, pitch,
roll) and rebuilding the quaternion with pitch and roll unchanged, and it
touches no entity with any other name. -/
theorem rotate_cube4_spin (dt : ℝ) (t : Transform) (name : String) :
    rotate_entity dt ("Cube4", t) =
      ("Cube4", { t with rotation :=
        (Quat.from_euler (t.rotation.yaw + 1 * dt) t.rotation.pitch t.rotation.roll) }) ∧
    (name ≠ "Cube4" → rotate_entity dt (name, t) = (name, t)) := by
  constructor
  · simp [rotate_entity, Quat.to_euler, Quat.from_euler]
  · intro h
    simp [rotate_entity, h]

/-- Witness for C6: a spun "Cube4" and an untouched "Plane". -/
theorem rotate_cube4_spin_witness :
    rotate_entity 2 ("Cube4", testCam) =
      ("Cube4", { testCam with rotation :=
        (Quat.from_euler (testCam.rotation.yaw + 1 * 2)
          testCam.rotation.pitch testCam.rotation.roll) }) ∧
    rotate_entity 2 ("Plane", testCam) = ("Plane", testCam) :=
  ⟨(rotate_cube4_spin 2 testCam "Plane").1,
   (rotate_cube4_spin 2 testCam "Plane").2 (by decide)⟩

/-- C10: the `rotate` system's frame condition — an entity not named
"Cube4" is returned entirely unchanged, and for every entity (including
"Cube4") the name, translation and scale are unchanged. -/
theorem rotate_frame_condition (dt : ℝ) (name : String) (t : Transform) :
    (name ≠ "Cube4" → rotate_entity dt (name, t) = (name, t)) ∧
    (rotate_entity dt (name, t)).1 = name ∧
    (rotate_entity dt (name, t)).2.translation = t.translation ∧
    (rotate_entity dt (name, t)).2.scale = t.scale := by
  refine ⟨fun h => by simp [rotate_entity, h], ?_, ?_, ?_⟩ <;>
    by_cases h : name = "Cube4" <;> simp [rotate_entity, h]

/-- Witness for C10 at a concrete non-"Cube4" entity. -/
theorem rotate_frame_condition_witness :
    rotate_entity 3 ("Cube2", testCam) = ("Cube2", testCam) ∧
    (rotate_entity 3 ("Cube2", testCam)).2.translation = testCam.translation :=
  ⟨(rotate_frame_condition 3 "Cube2" testCam).1 (by decide),
   (rotate_frame_condition 3 "Cube2" testCam).2.2.1⟩

/-- Counterexample to C4: with zero mouse motion and no buttons held, the
`orbit` step still overwrites the camera position with the point at orbit
distance from the origin, so a camera that is not already on that point
(here: the identity transform at the origin) has its position changed. -/
theorem orbit_null_input_counterexample :
    ¬ ((orbit CameraSettings.default ⟨0, 0⟩ false false 0 testCam).rotation =
          testCam.rotation ∧
       (orbit CameraSettings.default ⟨0, 0⟩ false false 0 testCam).translation =
          testCam.translation) := by
  intro h
  have hrot := orbit_rotation CameraSettings.default ⟨0, 0⟩ false false 0 testCam
  have hpitch :
      (orbit CameraSettings.default ⟨0, 0⟩ false false 0 testCam).rotation.pitch = 0 := by
    rw [hrot]
    show fclamp (testCam.rotation.pitch + 0 * CameraSettings.default.pitch_speed)
      CameraSettings.default.pitch_range.start CameraSettings.default.pitch_range.stop = 0
    have h3 := Real.pi_gt_three
    rw [show testCam.rotation.pitch + 0 * CameraSettings.default.pitch_speed = 0 by
      simp [testCam]]
    refine fclamp_eq_self ?_ ?_ <;> simp [CameraSettings.default] <;> nlinarith
  have hyaw :
      (orbit CameraSettings.default ⟨0, 0⟩ false false 0 testCam).rotation.yaw = 0 := by
    rw [hrot]
    simp [testCam]
  have hz :
      (orbit CameraSettings.default ⟨0, 0⟩ false false 0 testCam).translation.z = 20 := by
    rw [orbit_forward_translation]
    have hfz := forward_z (orbit CameraSettings.default ⟨0, 0⟩ false false 0 testCam)
    rw [hyaw, hpitch] at hfz
    simp only [Vec3.ZERO, Vec3.sub_def, Vec3.mul_def]
    rw [hfz, Real.cos_zero]
    show 0 - -(1 * 1) * CameraSettings.default.orbit_distance = 20
    rw [show CameraSettings.default.orbit_distance = 20 from rfl]
    norm_num
  rw [h.2] at hz
  simp [testCam] at hz

/-- C4 (amended): with zero mouse motion and no buttons held, one `orbit`
step leaves the orientation unchanged whenever the current pitch already
lies within the configured range, and it sets the position to the origin
minus the (unchanged) forward vector scaled by the orbit distance — so
the whole transform is unchanged exactly when the position already had
that value. -/
theorem orbit_null_input_amended (s : CameraSettings) (dt : ℝ) (cam : Transform)
    (h1 : s.pitch_range.start ≤ cam.rotation.pitch)
    (h2 : cam.rotation.pitch ≤ s.pitch_range.stop) :
    (orbit s ⟨0, 0⟩ false false dt cam).rotation = cam.rotation ∧
    (orbit s ⟨0, 0⟩ false false dt cam).translation =
      Vec3.ZERO - cam.forward * s.orbit_distance ∧
    (cam.translation = Vec3.ZERO - cam.forward * s.orbit_distance →
      orbit s ⟨0, 0⟩ false false dt cam = cam) := by
  have hrot : (orbit s ⟨0, 0⟩ false false dt cam).rotation = cam.rotation := by
    rw [orbit_rotation]
    simp [fclamp_eq_self h1 h2]
  have hfwd : (orbit s ⟨0, 0⟩ false false dt cam).forward = cam.forward := by
    unfold Transform.forward
    rw [hrot]
  have htrans : (orbit s ⟨0, 0⟩ false false dt cam).translation =
      Vec3.ZERO - cam.forward * s.orbit_distance := by
    rw [orbit_forward_translation, hfwd]
  refine ⟨hrot, htrans, fun hpos => ?_⟩
  have hscale : (orbit s ⟨0, 0⟩ false false dt cam).scale = cam.scale :=
    orbit_scale s ⟨0, 0⟩ false false dt cam
  have heta : orbit s ⟨0, 0⟩ false false dt cam =
      ⟨(orbit s ⟨0, 0⟩ false false dt cam).translation,
       (orbit s ⟨0, 0⟩ false false dt cam).rotation,
       (orbit s ⟨0, 0⟩ false false dt cam).scale⟩ := rfl
  rw [heta, hrot, hscale, htrans, ← hpos]

/-- Witness for the amended C4 at the identity camera. -/
theorem orbit_null_input_amended_witness :
    CameraSettings.default.pitch_range.start ≤ testCam.rotation.pitch ∧
    testCam.rotation.pitch ≤ CameraSettings.default.pitch_range.stop ∧
    (orbit CameraSettings.default ⟨0, 0⟩ false false 1 testCam).rotation =
      testCam.rotation := by
  have h3 := Real.pi_gt_three
  have h1 : CameraSettings.default.pitch_range.start ≤ testCam.rotation.pitch := by
    simp [CameraSettings.default, testCam]
    nlinarith
  have h2 : testCam.rotation.pitch ≤ CameraSettings.default.pitch_range.stop := by
    simp [CameraSettings.default, testCam]
    nlinarith
  exact ⟨h1, h2, (orbit_null_input_amended CameraSettings.default 1 testCam h1 h2).1⟩

/-- C9: the camera spawned by `setup` sits at distance √500 (between
22.36 and 22.37) from the origin, which is not the configured orbit
distance 20; the constant-radius property is first established by the
first `orbit` run, whatever the spawned rotation and that frame's
input. -/
theorem setup_camera_radius :
    setup_camera_translation.length = Real.sqrt 500 ∧
    (22.36 : ℝ) < Real.sqrt 500 ∧ Real.sqrt 500 < (22.37 : ℝ) ∧
    CameraSettings.default.orbit_distance = 20 ∧
    setup_camera_translation.length ≠ CameraSettings.default.orbit_distance ∧
    ∀ (rot : Quat) (m : Vec2) (l r : Bool) (dt : ℝ),
      ((orbit CameraSettings.default m l r dt
        ⟨setup_camera_translation, rot, ⟨1, 1, 1⟩⟩).translation).length =
        CameraSettings.default.orbit_distance := by
  have hlen : setup_camera_translation.length = Real.sqrt 500 := by
    unfold Vec3.length setup_camera_translation
    norm_num
  have hlt : (22.36 : ℝ) < Real.sqrt 500 := by
    rw [Real.lt_sqrt (by norm_num)]
    norm_num
  have hlt2 : Real.sqrt 500 < (22.37 : ℝ) := by
    rw [Real.sqrt_lt' (by norm_num)]
    norm_num
  have h20 : CameraSettings.default.orbit_distance = 20 := rfl
  refine ⟨hlen, hlt, hlt2, h20, ?_, ?_⟩
  · rw [hlen, h20]
    intro hcontra
    linarith
  · intro rot m l r dt
    rw [orbit_forward_translation]
    refine length_target_sub_forward _ _ ?_
    rw [h20]
    norm_num
